import Mathlib

/-!
Shallow embedding of the computational core of the EmotionsTrafficLight repository:
the face pose estimator (src/frontend/src/utils/facePoseEstimation.js) and the
facial analysis engine (src/frontend/src/utils/facialAnalysis.js).

Machine floating point arithmetic is modelled over the real numbers; every
function is a direct transcription of the corresponding JavaScript source.
Mutable per-session objects (smoothing filters, rolling histories, the
expression baseline) are modelled as explicit state records with step
functions returning the successor state.
-/

noncomputable section

open scoped Classical

namespace FaceCore

/-- 3D vector, mirroring the `Vector3` utility class of facePoseEstimation.js. -/
@[ext]
structure Vec3 where
  x : ℝ
  y : ℝ
  z : ℝ

instance : Inhabited Vec3 := ⟨⟨0, 0, 0⟩⟩

/-- The zero vector, `new Vector3(0, 0, 0)`. -/
def Vec3.zero : Vec3 := ⟨0, 0, 0⟩

/-- `Vector3.subtract`. -/
def Vec3.sub (a b : Vec3) : Vec3 := ⟨a.x - b.x, a.y - b.y, a.z - b.z⟩

/-- `Vector3.add`. -/
def Vec3.add (a b : Vec3) : Vec3 := ⟨a.x + b.x, a.y + b.y, a.z + b.z⟩

/-- `Vector3.multiply(scalar)`. -/
def Vec3.smul (a : Vec3) (s : ℝ) : Vec3 := ⟨a.x * s, a.y * s, a.z * s⟩

/-- `Vector3.length`. -/
def Vec3.len (v : Vec3) : ℝ := Real.sqrt (v.x * v.x + v.y * v.y + v.z * v.z)

/-- `Vector3.normalize`: zero-length vectors normalize to the zero vector. -/
def Vec3.normalize (v : Vec3) : Vec3 :=
  if v.len = 0 then ⟨0, 0, 0⟩ else ⟨v.x / v.len, v.y / v.len, v.z / v.len⟩

/-- `Vector3.dot`. -/
def Vec3.dot (a b : Vec3) : ℝ := a.x * b.x + a.y * b.y + a.z * b.z

/-- `Vector3.cross`. -/
def Vec3.cross (a b : Vec3) : Vec3 :=
  ⟨a.y * b.z - a.z * b.y, a.z * b.x - a.x * b.z, a.x * b.y - a.y * b.x⟩

/-- The face-local coordinate axes computed by `computeFaceAxes`. -/
structure FaceAxes where
  right : Vec3
  up : Vec3
  forward : Vec3

/-- `FacePoseEstimator.computeFaceAxes`, lines 175-193 of facePoseEstimation.js. -/
def computeFaceAxes (leftEye rightEye noseTip chin : Vec3) : FaceAxes :=
  let horizontal := (rightEye.sub leftEye).normalize
  let verticalRaw := (chin.sub noseTip).normalize
  let forward := (horizontal.cross verticalRaw).normalize
  let vertical := (forward.cross horizontal).normalize
  ⟨horizontal, vertical, forward⟩

/-- `FacePoseEstimator.buildRotationMatrix`, lines 198-205: the matrix whose
columns are the face axes (right, up, forward). -/
def buildRotationMatrix (axes : FaceAxes) : Matrix (Fin 3) (Fin 3) ℝ :=
  !![axes.right.x, axes.up.x, axes.forward.x;
     axes.right.y, axes.up.y, axes.forward.y;
     axes.right.z, axes.up.z, axes.forward.z]

/-- Euler angles in degrees, as produced by `extractEulerAngles`. -/
structure EulerAngles where
  yaw : ℝ
  pitch : ℝ
  roll : ℝ

/-- JavaScript `Math.atan2(y, x)`, modelled by the argument of the complex
number x + y i (both have range (-pi, pi] on the reals and send (0,0) to 0). -/
def atan2 (y x : ℝ) : ℝ := Complex.arg ⟨x, y⟩

/-- `FacePoseEstimator.extractEulerAngles`, lines 213-237: ZYX decomposition
with a gimbal-singularity branch, converted to degrees. -/
def extractEulerAngles (R : Matrix (Fin 3) (Fin 3) ℝ) : EulerAngles :=
  let sy := Real.sqrt (R 0 0 * R 0 0 + R 1 0 * R 1 0)
  if sy < 1e-6 then
    ⟨atan2 (-R 0 1) (R 1 1) * 180 / Real.pi,
     atan2 (-R 2 0) sy * 180 / Real.pi,
     0 * 180 / Real.pi⟩
  else
    ⟨atan2 (R 1 0) (R 0 0) * 180 / Real.pi,
     atan2 (-R 2 0) sy * 180 / Real.pi,
     atan2 (R 2 1) (R 2 2) * 180 / Real.pi⟩

/-- State of one `ExponentialSmoother` (alpha, and the current value or null). -/
structure SmootherState where
  alpha : ℝ
  value : Option ℝ

/-- `ExponentialSmoother.smooth`: returns the updated filter state and the
smoothed value; the first observation seeds the filter directly. -/
def SmootherState.smooth (s : SmootherState) (newValue : ℝ) : SmootherState × ℝ :=
  match s.value with
  | none => (⟨s.alpha, some newValue⟩, newValue)
  | some v =>
    let nv := s.alpha * newValue + (1 - s.alpha) * v
    (⟨s.alpha, some nv⟩, nv)

/-- Mutable state of a `FacePoseEstimator` instance. -/
structure EstimatorState where
  yawSmoother : SmootherState
  pitchSmoother : SmootherState
  rollSmoother : SmootherState
  poseHistory : List EulerAngles

/-- A freshly constructed `FacePoseEstimator` (alpha = 0.3, empty history). -/
def initialEstimator : EstimatorState := ⟨⟨0.3, none⟩, ⟨0.3, none⟩, ⟨0.3, none⟩, []⟩

/-- Push onto a rolling history: `push` followed by `shift` once the length
exceeds `cap` (the shared maxHistoryLength = 30 pattern of both classes). -/
def pushCap {α : Type} (cap : ℕ) (h : List α) (a : α) : List α :=
  let h2 := h ++ [a]
  if cap < h2.length then h2.tail else h2

/-- Stability metrics, each in [0,1]. -/
structure StabilityMetrics where
  overall : ℝ
  yaw : ℝ
  pitch : ℝ
  roll : ℝ

/-- The (misnamed) `computeVariance` helper of `computeStability`: the standard
deviation of a list of reals (mean, population variance, then square root). -/
def stdDev (values : List ℝ) : ℝ :=
  Real.sqrt ((values.map fun v =>
    (v - values.sum / (values.length : ℝ)) ^ 2).sum / (values.length : ℝ))

/-- `FacePoseEstimator.computeStability`, lines 243-272: all-ones below 5
history entries, otherwise per-axis min(std/10, 1) and the overall metric
from the mean of the three raw standard deviations. -/
def computeStability (history : List EulerAngles) : StabilityMetrics :=
  if history.length < 5 then ⟨1, 1, 1, 1⟩
  else
    let yawStd := stdDev (history.map EulerAngles.yaw)
    let pitchStd := stdDev (history.map EulerAngles.pitch)
    let rollStd := stdDev (history.map EulerAngles.roll)
    ⟨min ((yawStd + pitchStd + rollStd) / 3 / 10) 1,
     min (yawStd / 10) 1,
     min (pitchStd / 10) 1,
     min (rollStd / 10) 1⟩

/-- The anchor points block of the pose result. -/
structure AnchorPoints where
  leftEye : Vec3
  rightEye : Vec3
  noseTip : Vec3
  chin : Vec3
  eyeCenter : Vec3

/-- The result object of `estimatePose`. -/
structure PoseResult where
  axes : FaceAxes
  rotationMatrix : Matrix (Fin 3) (Fin 3) ℝ
  rawAngles : EulerAngles
  smoothedAngles : EulerAngles
  stability : StabilityMetrics
  anchorPoints : AnchorPoints

/-- `FacePoseEstimator.estimatePose`, lines 117-170.  A null or short landmark
array yields null and leaves the state untouched; otherwise the anchor points
are read by fixed index (33, 263, 1, 152, 133, 362), the axes, rotation
matrix and Euler angles are computed, the three smoothers advance, and the
smoothed angles are pushed onto the capacity-30 pose history. -/
def estimatePose (s : EstimatorState) (landmarks : Option (List Vec3)) :
    EstimatorState × Option PoseResult :=
  match landmarks with
  | none => (s, none)
  | some l =>
    if l.length < 468 then (s, none)
    else
      let leftEye := l.getD 33 default
      let rightEye := l.getD 263 default
      let noseTip := l.getD 1 default
      let chin := l.getD 152 default
      let leftEyeInner := l.getD 133 default
      let rightEyeInner := l.getD 362 default
      let axes := computeFaceAxes leftEye rightEye noseTip chin
      let rotationMatrix := buildRotationMatrix axes
      let rawAngles := extractEulerAngles rotationMatrix
      let ySm := s.yawSmoother.smooth rawAngles.yaw
      let pSm := s.pitchSmoother.smooth rawAngles.pitch
      let rSm := s.rollSmoother.smooth rawAngles.roll
      let smoothedAngles : EulerAngles := ⟨ySm.2, pSm.2, rSm.2⟩
      let newHistory := pushCap 30 s.poseHistory smoothedAngles
      let stability := computeStability newHistory
      let eyeCenter := (leftEyeInner.add rightEyeInner).smul 0.5
      (⟨ySm.1, pSm.1, rSm.1, newHistory⟩,
       some ⟨axes, rotationMatrix, rawAngles, smoothedAngles, stability,
             ⟨leftEye, rightEye, noseTip, chin, eyeCenter⟩⟩)

/-- The raw Euler angles a frame produces (the pure part of `estimatePose`). -/
def frameRawAngles (l : List Vec3) : EulerAngles :=
  extractEulerAngles (buildRotationMatrix
    (computeFaceAxes (l.getD 33 default) (l.getD 263 default) (l.getD 1 default)
      (l.getD 152 default)))

/-- The smoothed angles `estimatePose` pushes onto the history for frame `l`
when run from state `s`. -/
def frameSmoothed (s : EstimatorState) (l : List Vec3) : EulerAngles :=
  ⟨(s.yawSmoother.smooth (frameRawAngles l).yaw).2,
   (s.pitchSmoother.smooth (frameRawAngles l).pitch).2,
   (s.rollSmoother.smooth (frameRawAngles l).roll).2⟩

/-- Run the estimator over a sequence of frames, keeping the final state. -/
def runEstimator (s : EstimatorState) (frames : List (List Vec3)) : EstimatorState :=
  frames.foldl (fun st f => (estimatePose st (some f)).1) s

/-- The sequence of smoothed angles pushed onto the pose history while running
the estimator over `frames`. -/
def smoothedTrace : EstimatorState → List (List Vec3) → List EulerAngles
  | _, [] => []
  | s, l :: ls => frameSmoothed s l :: smoothedTrace (estimatePose s (some l)).1 ls

/-- Names of the entries of a MeasurementSet: the 13 MEASUREMENT_PAIRS of
facialAnalysis.js plus the three derived measurements added by
`computeDistances`. -/
inductive MeasKey where
  | EYE_TO_EYE
  | LEFT_EYE_WIDTH
  | RIGHT_EYE_WIDTH
  | NOSE_HEIGHT
  | NOSE_WIDTH
  | MOUTH_WIDTH
  | MOUTH_HEIGHT
  | FOREHEAD_TO_NOSE
  | NOSE_TO_CHIN
  | FACE_HEIGHT
  | UPPER_THIRD
  | MIDDLE_THIRD
  | LOWER_THIRD
  | LEFT_EYE_HEIGHT
  | RIGHT_EYE_HEIGHT
  | MOUTH_OPENNESS
deriving DecidableEq

/-- The `MEASUREMENT_PAIRS` table (landmark index pairs); the three derived
measurements have no pair. -/
def measurementPair : MeasKey → Option (ℕ × ℕ)
  | .EYE_TO_EYE => some (33, 263)
  | .LEFT_EYE_WIDTH => some (33, 133)
  | .RIGHT_EYE_WIDTH => some (263, 362)
  | .NOSE_HEIGHT => some (6, 2)
  | .NOSE_WIDTH => some (220, 440)
  | .MOUTH_WIDTH => some (61, 291)
  | .MOUTH_HEIGHT => some (13, 14)
  | .FOREHEAD_TO_NOSE => some (10, 1)
  | .NOSE_TO_CHIN => some (1, 152)
  | .FACE_HEIGHT => some (10, 152)
  | .UPPER_THIRD => some (10, 6)
  | .MIDDLE_THIRD => some (6, 2)
  | .LOWER_THIRD => some (2, 152)
  | .LEFT_EYE_HEIGHT => none
  | .RIGHT_EYE_HEIGHT => none
  | .MOUTH_OPENNESS => none

/-- `FACIAL_REGIONS.LEFT_EYE.upper`. -/
def LEFT_EYE_upper : List ℕ := [246, 161, 160, 159, 158, 157, 173]

/-- `FACIAL_REGIONS.LEFT_EYE.lower`. -/
def LEFT_EYE_lower : List ℕ := [33, 7, 163, 144, 145, 153, 154, 155, 133]

/-- `FACIAL_REGIONS.RIGHT_EYE.upper`. -/
def RIGHT_EYE_upper : List ℕ := [466, 388, 387, 386, 385, 384, 398]

/-- `FACIAL_REGIONS.RIGHT_EYE.lower`. -/
def RIGHT_EYE_lower : List ℕ := [263, 249, 390, 373, 374, 380, 381, 382, 362]

/-- `FACIAL_REGIONS.LEFT_EYEBROW`. -/
def LEFT_EYEBROW : List ℕ := [70, 63, 105, 66, 107, 55, 189]

/-- `FACIAL_REGIONS.RIGHT_EYEBROW`. -/
def RIGHT_EYEBROW : List ℕ := [300, 293, 334, 296, 336, 285, 417]

/-- `FACIAL_REGIONS.NOSE.bridge`. -/
def NOSE_bridge : List ℕ := [6, 197, 195, 5]

/-- `FACIAL_REGIONS.LEFT_CHEEK`. -/
def LEFT_CHEEK : List ℕ := [116, 117, 118, 119, 120, 121, 128, 245]

/-- `FACIAL_REGIONS.RIGHT_CHEEK`. -/
def RIGHT_CHEEK : List ℕ := [345, 346, 347, 348, 349, 350, 357, 465]

/-- `FACIAL_REGIONS.JAW.left`. -/
def JAW_left : List ℕ := [234, 93, 132, 58, 172, 136, 150, 149, 176, 148, 152]

/-- `FACIAL_REGIONS.JAW.right`. -/
def JAW_right : List ℕ := [454, 323, 361, 288, 397, 365, 379, 378, 400, 377, 152]

/-- `FACIAL_REGIONS.JAW.chin`. -/
def JAW_chin : List ℕ := [152, 378, 379, 365, 397, 288, 361, 323, 454]

/-- `FACIAL_REGIONS.LEFT_EYE.outer`. -/
def LEFT_EYE_outer : List ℕ := [33, 246, 161, 160, 159, 158, 157, 173, 133]

/-- `FACIAL_REGIONS.RIGHT_EYE.outer`. -/
def RIGHT_EYE_outer : List ℕ := [263, 466, 388, 387, 386, 385, 384, 398, 362]

/-- `FACIAL_REGIONS.MOUTH.outer_upper`. -/
def MOUTH_outer_upper : List ℕ := [61, 185, 40, 39, 37, 0, 267, 269, 270, 409, 291]

/-- `FACIAL_REGIONS.MOUTH.outer_lower`. -/
def MOUTH_outer_lower : List ℕ := [146, 91, 181, 84, 17, 314, 405, 321, 375, 291]

/-- The local `distance` helper of `computeDistances`. -/
def distancePoints (p1 p2 : Vec3) : ℝ :=
  Real.sqrt ((p2.x - p1.x) * (p2.x - p1.x) + (p2.y - p1.y) * (p2.y - p1.y) +
    (p2.z - p1.z) * (p2.z - p1.z))

/-- `FacialAnalyzer.distance3D` (same distance, written with squares). -/
def distance3D (p1 p2 : Vec3) : ℝ :=
  Real.sqrt ((p2.x - p1.x) ^ 2 + (p2.y - p1.y) ^ 2 + (p2.z - p1.z) ^ 2)

/-- The all-pairs vertical gaps accumulated by `computeEyeHeight`: one entry
per (upper, lower) index pair where both landmarks resolve. -/
def eyeGaps (uppers lowers : List (Option Vec3)) : List ℝ :=
  uppers.flatMap fun u => lowers.filterMap fun lo =>
    match u, lo with
    | some a, some b => some |a.y - b.y|
    | _, _ => none

/-- `FacialAnalyzer.computeEyeHeight`, lines 195-214: mean vertical gap over
all (upper lid, lower lid) landmark pairs, 0 when no pair resolves. -/
def computeEyeHeight (l : List Vec3) (upper lower : List ℕ) : ℝ :=
  if 0 < (eyeGaps (upper.map fun i => l.get? i) (lower.map fun i => l.get? i)).length then
    (eyeGaps (upper.map fun i => l.get? i) (lower.map fun i => l.get? i)).sum /
      ((eyeGaps (upper.map fun i => l.get? i) (lower.map fun i => l.get? i)).length : ℝ)
  else 0

/-- `FacialAnalyzer.computeMouthOpenness`, lines 219-230: distance between the
inner-lip centers (landmarks 13 and 14), 0 when either is missing. -/
def computeMouthOpenness (l : List Vec3) : ℝ :=
  match l.get? 13, l.get? 14 with
  | some top, some bottom => distance3D top bottom
  | _, _ => 0

/-- A MeasurementSet: named scalar distances; a name maps to none when the
code leaves that entry undefined. -/
def MeasurementSet : Type := MeasKey → Option ℝ

/-- One pair entry of `computeDistances`: present iff both landmarks resolve. -/
def pairDistance (l : List Vec3) (i j : ℕ) : Option ℝ :=
  match l.get? i, l.get? j with
  | some p1, some p2 => some (distancePoints p1 p2)
  | _, _ => none

/-- `FacialAnalyzer.computeDistances`, lines 169-190: every pair present in
the frame yields a distance, plus the two eye heights and mouth openness. -/
def computeDistances (l : List Vec3) : MeasurementSet := fun k =>
  match measurementPair k with
  | some (i, j) => pairDistance l i j
  | none =>
    match k with
    | .LEFT_EYE_HEIGHT => some (computeEyeHeight l LEFT_EYE_upper LEFT_EYE_lower)
    | .RIGHT_EYE_HEIGHT => some (computeEyeHeight l RIGHT_EYE_upper RIGHT_EYE_lower)
    | .MOUTH_OPENNESS => some (computeMouthOpenness l)
    | _ => none

/-- The symmetry score record of `computeSymmetry`. -/
structure SymmetryScore where
  overall : ℝ
  eyes : ℝ
  eyebrows : ℝ
  score : ℝ

/-- `FacialAnalyzer.getRegionHeight`, lines 399-405: mean Y coordinate of the
resolved landmarks of a region, 0 when none resolve. -/
def getRegionHeight (l : List Vec3) (indices : List ℕ) : ℝ :=
  if (indices.filterMap fun i => l.get? i).length = 0 then 0
  else ((indices.filterMap fun i => l.get? i).map Vec3.y).sum /
    ((indices.filterMap fun i => l.get? i).length : ℝ)

/-- `FacialAnalyzer.computeSymmetry`, lines 235-261. -/
def computeSymmetry (l : List Vec3) : SymmetryScore :=
  let leftEyeWidth := match l.get? 33, l.get? 133 with
    | some p, some q => distance3D p q
    | _, _ => 0
  let rightEyeWidth := match l.get? 263, l.get? 362 with
    | some p, some q => distance3D p q
    | _, _ => 0
  let eyeSymmetry := if 0 < leftEyeWidth ∧ 0 < rightEyeWidth then
      1 - |leftEyeWidth - rightEyeWidth| / max leftEyeWidth rightEyeWidth
    else 1
  let leftBrowHeight := getRegionHeight l LEFT_EYEBROW
  let rightBrowHeight := getRegionHeight l RIGHT_EYEBROW
  let browSymmetry := if 0 < leftBrowHeight ∧ 0 < rightBrowHeight then
      1 - |leftBrowHeight - rightBrowHeight| / max leftBrowHeight rightBrowHeight
    else 1
  let overall := (eyeSymmetry + browSymmetry) / 2
  ⟨overall, eyeSymmetry, browSymmetry, overall * 100⟩

/-- The consecutive point triples walked by `computeCurvature`. -/
def windows3 {α : Type} : List α → List (α × α × α)
  | a :: b :: c :: rest => (a, b, c) :: windows3 (b :: c :: rest)
  | _ => []

/-- One interior point's contribution in `computeCurvature`: the turning angle
between the two incident edge vectors (0 when either edge is degenerate). -/
def turnAngle (prev curr next : Vec3) : ℝ :=
  let v1 := curr.sub prev
  let v2 := next.sub curr
  let d := v1.dot v2
  let len1 := Real.sqrt (v1.x ^ 2 + v1.y ^ 2 + v1.z ^ 2)
  let len2 := Real.sqrt (v2.x ^ 2 + v2.y ^ 2 + v2.z ^ 2)
  if 0 < len1 ∧ 0 < len2 then Real.arccos (max (-1) (min 1 (d / (len1 * len2)))) else 0

/-- The local `computeCurvature` helper of `computeRegionalCurvature`,
lines 267-297: mean turning angle over the interior points of a region's
resolved landmark chain. -/
def computeCurvature (l : List Vec3) (indices : List ℕ) : ℝ :=
  if indices.length < 3 then 0
  else
    let points := indices.filterMap fun i => l.get? i
    if points.length < 3 then 0
    else ((windows3 points).map fun t => turnAngle t.1 t.2.1 t.2.2).sum /
      ((points.length - 2 : ℕ) : ℝ)

/-- The curvature map of `computeRegionalCurvature`. -/
structure CurvatureMap where
  noseBridge : ℝ
  leftCheek : ℝ
  rightCheek : ℝ
  jawLeft : ℝ
  jawRight : ℝ
  chin : ℝ

/-- `FacialAnalyzer.computeRegionalCurvature`, lines 266-307. -/
def computeRegionalCurvature (l : List Vec3) : CurvatureMap :=
  ⟨computeCurvature l NOSE_bridge,
   computeCurvature l LEFT_CHEEK,
   computeCurvature l RIGHT_CHEEK,
   computeCurvature l JAW_left,
   computeCurvature l JAW_right,
   computeCurvature l JAW_chin⟩

/-- Direction tag of a reported measurement change. -/
inductive Direction where
  | increase
  | decrease
deriving DecidableEq

/-- One entry of the `changes` object of `detectExpressionChanges`. -/
structure MeasurementChange where
  current : ℝ
  baseline : ℝ
  percentChange : ℝ
  direction : Direction

/-- The result object of `detectExpressionChanges`. -/
structure ExpressionResult where
  hasChange : Prop
  changes : MeasKey → Option MeasurementChange

/-- The `{hasChange: false, changes: {}}` early-return value. -/
def noChanges : ExpressionResult := ⟨False, fun _ => none⟩

/-- The change recorded for one measurement name: present when the baseline
entry is truthy (present and nonzero) and the absolute percent change
exceeds 10. -/
def changeAt (baseline current : MeasurementSet) (k : MeasKey) : Option MeasurementChange :=
  match current k, baseline k with
  | some v, some b =>
    if b ≠ 0 ∧ 10 < |(v - b) / b * 100| then
      some ⟨v, b, (v - b) / b * 100,
        if 0 < (v - b) / b * 100 then .increase else .decrease⟩
    else none
  | _, _ => none

/-- The comparison loop of `detectExpressionChanges`: `hasChange` holds iff
some measurement records a change. -/
def mkExpressionResult (baseline current : MeasurementSet) : ExpressionResult :=
  ⟨∃ k, changeAt baseline current k ≠ none, changeAt baseline current⟩

/-- One entry of the analyzer's rolling measurement history (the `timestamp`
field of the source, an ambient clock read, is omitted: nothing reads it). -/
structure HistoryEntry where
  distances : MeasurementSet
  normalized : MeasurementSet

instance : Inhabited HistoryEntry := ⟨⟨fun _ => none, fun _ => none⟩⟩

/-- Mutable state of a `FacialAnalyzer` instance. -/
structure AnalyzerState where
  measurementHistory : List HistoryEntry
  baselineMeasurements : Option MeasurementSet

/-- A freshly constructed `FacialAnalyzer`. -/
def freshAnalyzer : AnalyzerState := ⟨[], none⟩

/-- `FacialAnalyzer.detectExpressionChanges`, lines 312-352, returning the
(possibly newly captured) baseline together with the result: below 5 history
entries nothing is reported; a missing baseline is captured from history
position 5 once the history holds at least 10 entries. -/
def detectExpressionChanges (history : List HistoryEntry) (baseline : Option MeasurementSet)
    (current : MeasurementSet) : Option MeasurementSet × ExpressionResult :=
  if history.length < 5 then (baseline, noChanges)
  else
    match baseline with
    | some b => (some b, mkExpressionResult b current)
    | none =>
      if 10 ≤ history.length then
        let b := (history.getD 5 default).distances
        (some b, mkExpressionResult b current)
      else (none, noChanges)

/-- The reference scale of `normalizeToFaceSize`: the inter-eye distance, or
1 when that entry is missing or zero (JavaScript `distances.EYE_TO_EYE || 1`). -/
def eyeScale (distances : MeasurementSet) : ℝ :=
  match distances .EYE_TO_EYE with
  | some v => if v = 0 then 1 else v
  | none => 1

/-- `FacialAnalyzer.normalizeToFaceSize`, lines 357-367: divide every entry by
the inter-eye reference scale. -/
def normalizeToFaceSize (distances : MeasurementSet) : MeasurementSet := fun k =>
  (distances k).map fun v => v / eyeScale distances

/-- The anatomical warnings of `validateAnatomy` (human-readable strings in
the source; the `toFixed` formatting carries no information). -/
inductive AnatomyWarning where
  | mouthWidthTooSmall
  | mouthWidthTooLarge
  | noseWidthTooSmall
  | noseWidthTooLarge
  | faceHeightTooSmall
  | faceHeightTooLarge
deriving DecidableEq

/-- One row of the `checks` table of `validateAnatomy`; an absent value (JS
`undefined`) fails both comparisons, so produces no warning. -/
def boundWarnings (v : Option ℝ) (lo hi : ℝ) (small large : AnatomyWarning) :
    List AnatomyWarning :=
  match v with
  | some value => if value < lo then [small] else if hi < value then [large] else []
  | none => []

/-- The warnings list of `FacialAnalyzer.validateAnatomy`, lines 372-394. -/
def anatomyWarnings (normalized : MeasurementSet) : List AnatomyWarning :=
  boundWarnings (normalized .MOUTH_WIDTH) 1.2 2.0 .mouthWidthTooSmall .mouthWidthTooLarge ++
  boundWarnings (normalized .NOSE_WIDTH) 0.6 1.2 .noseWidthTooSmall .noseWidthTooLarge ++
  boundWarnings (normalized .FACE_HEIGHT) 3.0 5.0 .faceHeightTooSmall .faceHeightTooLarge

/-- The result object of `validateAnatomy`. -/
structure ValidationResult where
  valid : Prop
  warnings : List AnatomyWarning

/-- `FacialAnalyzer.validateAnatomy`: valid iff no warning fired. -/
def validateAnatomy (normalized : MeasurementSet) : ValidationResult :=
  ⟨anatomyWarnings normalized = [], anatomyWarnings normalized⟩

/-- The local `computeCenter` helper of `getRegionCenters`. -/
def computeCenter (l : List Vec3) (indices : List ℕ) : Option Vec3 :=
  let points := indices.filterMap fun i => l.get? i
  if points.length = 0 then none
  else some ⟨(points.map Vec3.x).sum / (points.length : ℝ),
             (points.map Vec3.y).sum / (points.length : ℝ),
             (points.map Vec3.z).sum / (points.length : ℝ)⟩

/-- The region centers record of `getRegionCenters`. -/
structure RegionCenters where
  leftEye : Option Vec3
  rightEye : Option Vec3
  nose : Option Vec3
  mouth : Option Vec3
  leftCheek : Option Vec3
  rightCheek : Option Vec3

/-- `FacialAnalyzer.getRegionCenters`, lines 421-451. -/
def getRegionCenters (l : List Vec3) : RegionCenters :=
  ⟨computeCenter l LEFT_EYE_outer,
   computeCenter l RIGHT_EYE_outer,
   computeCenter l NOSE_bridge,
   computeCenter l (MOUTH_outer_upper ++ MOUTH_outer_lower),
   computeCenter l LEFT_CHEEK,
   computeCenter l RIGHT_CHEEK⟩

/-- The merged per-frame result object of `FacialAnalyzer.analyze`. -/
structure AnalysisResult where
  distances : MeasurementSet
  symmetry : SymmetryScore
  curvature : CurvatureMap
  expression : ExpressionResult
  normalized : MeasurementSet
  validation : ValidationResult
  regions : RegionCenters

/-- `FacialAnalyzer.analyze`, lines 119-164.  Null or short input yields null
with the state untouched; otherwise all measurements are computed on
`centeredLandmarks || landmarks`, expression changes are detected against the
pre-push history, and the new entry is pushed onto the capacity-30 history. -/
def analyze (s : AnalyzerState) (landmarks : Option (List Vec3))
    (centeredLandmarks : Option (List Vec3)) : AnalyzerState × Option AnalysisResult :=
  match landmarks with
  | none => (s, none)
  | some lm =>
    if lm.length < 468 then (s, none)
    else
      let points := centeredLandmarks.getD lm
      let distances := computeDistances points
      let symmetry := computeSymmetry points
      let curvature := computeRegionalCurvature points
      let detRes := detectExpressionChanges s.measurementHistory s.baselineMeasurements distances
      let normalized := normalizeToFaceSize distances
      let validation := validateAnatomy normalized
      let newHistory := pushCap 30 s.measurementHistory ⟨distances, normalized⟩
      (⟨newHistory, detRes.1⟩,
       some ⟨distances, symmetry, curvature, detRes.2, normalized, validation,
             getRegionCenters points⟩)

/-- The measurement-tracking slice of one `analyze` call, taking the frame's
MeasurementSet directly: detect expression changes against the pre-push
state, then push the {distances, normalized} entry (lines 137 and 146-153). -/
def trackerStep (s : AnalyzerState) (d : MeasurementSet) : AnalyzerState × ExpressionResult :=
  let detRes := detectExpressionChanges s.measurementHistory s.baselineMeasurements d
  (⟨pushCap 30 s.measurementHistory ⟨d, normalizeToFaceSize d⟩, detRes.1⟩, detRes.2)

/-- Iterate `trackerStep`, collecting every call's expression result. -/
def trackerRun (s : AnalyzerState) : List MeasurementSet → AnalyzerState × List ExpressionResult
  | [] => (s, [])
  | d :: ds =>
    let step := trackerStep s d
    let rest := trackerRun step.1 ds
    (rest.1, step.2 :: rest.2)

/-- Run the analyzer over a sequence of raw frames (no centered landmarks). -/
def runAnalyzer (s : AnalyzerState) (frames : List (List Vec3)) : AnalyzerState :=
  frames.foldl (fun st f => (analyze st (some f) none).1) s

/-- The history entry one valid frame contributes in `analyze`. -/
def analyzerEntry (f : List Vec3) : HistoryEntry :=
  ⟨computeDistances f, normalizeToFaceSize (computeDistances f)⟩

/-- The MeasurementSet holding only EYE_TO_EYE = 10 (warm-up scenario). -/
def mset10 : MeasurementSet := fun k => if k = .EYE_TO_EYE then some 10 else none

/-- The MeasurementSet holding only EYE_TO_EYE = 12 (warm-up scenario). -/
def mset12 : MeasurementSet := fun k => if k = .EYE_TO_EYE then some 12 else none

/-- Modelled from the spec: the inverse of the ZYX Euler decomposition named
by the round-trip property (the composition Rz(yaw) Ry(pitch) Rx(roll) of the
three elementary rotations, angles supplied in degrees).  This construction
lives only in the spec's test property; the repository code contains the
decomposition `extractEulerAngles`. -/
def eulerToMatrix (yaw pitch roll : ℝ) : Matrix (Fin 3) (Fin 3) ℝ :=
  let a := yaw * Real.pi / 180
  let b := pitch * Real.pi / 180
  let g := roll * Real.pi / 180
  !![Real.cos a * Real.cos b,
     Real.cos a * Real.sin b * Real.sin g - Real.sin a * Real.cos g,
     Real.cos a * Real.sin b * Real.cos g + Real.sin a * Real.sin g;
     Real.sin a * Real.cos b,
     Real.sin a * Real.sin b * Real.sin g + Real.cos a * Real.cos g,
     Real.sin a * Real.sin b * Real.cos g - Real.cos a * Real.sin g;
     -Real.sin b,
     Real.cos b * Real.sin g,
     Real.cos b * Real.cos g]

/-- A 30-entry pose history whose smoothed yaw alternates between -20 and
+20 degrees (pitch and roll zero). -/
def altHistory : List EulerAngles :=
  [⟨-20, 0, 0⟩, ⟨20, 0, 0⟩, ⟨-20, 0, 0⟩, ⟨20, 0, 0⟩, ⟨-20, 0, 0⟩, ⟨20, 0, 0⟩,
   ⟨-20, 0, 0⟩, ⟨20, 0, 0⟩, ⟨-20, 0, 0⟩, ⟨20, 0, 0⟩, ⟨-20, 0, 0⟩, ⟨20, 0, 0⟩,
   ⟨-20, 0, 0⟩, ⟨20, 0, 0⟩, ⟨-20, 0, 0⟩, ⟨20, 0, 0⟩, ⟨-20, 0, 0⟩, ⟨20, 0, 0⟩,
   ⟨-20, 0, 0⟩, ⟨20, 0, 0⟩, ⟨-20, 0, 0⟩, ⟨20, 0, 0⟩, ⟨-20, 0, 0⟩, ⟨20, 0, 0⟩,
   ⟨-20, 0, 0⟩, ⟨20, 0, 0⟩, ⟨-20, 0, 0⟩, ⟨20, 0, 0⟩, ⟨-20, 0, 0⟩, ⟨20, 0, 0⟩]

/-- Reflection of a landmark across the vertical plane x = c. -/
def mirrorPoint (c : ℝ) (p : Vec3) : Vec3 := ⟨2 * c - p.x, p.y, p.z⟩

/-- Uniform scaling of one landmark by the factor k. -/
def scalePoint (k : ℝ) (p : Vec3) : Vec3 := ⟨k * p.x, k * p.y, k * p.z⟩

/-- Uniform scaling of a landmark frame by the factor k. -/
def scaleFrame (k : ℝ) (l : List Vec3) : List Vec3 := l.map (scalePoint k)

/-- A 468-point frame with coincident eye corners (zero inter-eye distance)
but a nonzero mouth gap: every landmark is the origin except landmark 14. -/
def degenerateEyeFrame : List Vec3 :=
  List.ofFn fun i : Fin 468 => if (i : ℕ) = 14 then ⟨1, 0, 0⟩ else ⟨0, 0, 0⟩

/-- A 468-point frame whose anchors are non-degenerate: every landmark is the
origin except the right-eye outer corner (index 263, unit x) and the chin
(index 152, unit y). -/
def anchorFrame : List Vec3 :=
  List.ofFn fun i : Fin 468 =>
    if (i : ℕ) = 263 then ⟨1, 0, 0⟩ else if (i : ℕ) = 152 then ⟨0, 1, 0⟩ else ⟨0, 0, 0⟩

end FaceCore

namespace FaceCore

lemma Vec3.dot_self_nonneg (v : Vec3) : 0 ≤ v.dot v :=
  add_nonneg (add_nonneg (mul_self_nonneg v.x) (mul_self_nonneg v.y)) (mul_self_nonneg v.z)

lemma Vec3.len_eq_sqrt_dot (v : Vec3) : v.len = Real.sqrt (v.dot v) := rfl

lemma Vec3.dot_self_eq_zero_iff (v : Vec3) : v.dot v = 0 ↔ v = Vec3.zero := by
  constructor
  · intro h
    unfold Vec3.dot at h
    have hx : v.x = 0 := by nlinarith [mul_self_nonneg v.x, mul_self_nonneg v.y, mul_self_nonneg v.z]
    have hy : v.y = 0 := by nlinarith [mul_self_nonneg v.x, mul_self_nonneg v.y, mul_self_nonneg v.z]
    have hz : v.z = 0 := by nlinarith [mul_self_nonneg v.x, mul_self_nonneg v.y, mul_self_nonneg v.z]
    ext <;> simp [hx, hy, hz, Vec3.zero]
  · intro h
    subst h
    simp [Vec3.dot, Vec3.zero]

lemma Vec3.len_pos (v : Vec3) (hv : v ≠ Vec3.zero) : 0 < v.len := by
  rw [Vec3.len_eq_sqrt_dot]
  refine Real.sqrt_pos.mpr ?_
  rcases lt_or_eq_of_le (Vec3.dot_self_nonneg v) with h | h
  · exact h
  · exact absurd ((Vec3.dot_self_eq_zero_iff v).mp h.symm) hv

lemma Vec3.len_mul_self (v : Vec3) : v.len * v.len = v.dot v := by
  rw [Vec3.len_eq_sqrt_dot]
  exact Real.mul_self_sqrt (Vec3.dot_self_nonneg v)

lemma Vec3.normalize_eq_smul (v : Vec3) (hv : v ≠ Vec3.zero) :
    v.normalize = v.smul v.len⁻¹ := by
  unfold Vec3.normalize
  rw [if_neg (ne_of_gt (Vec3.len_pos v hv))]
  ext <;> simp [Vec3.smul, div_eq_mul_inv]

lemma Vec3.smul_dot_smul (a b : Vec3) (s t : ℝ) :
    (a.smul s).dot (b.smul t) = s * t * a.dot b := by
  unfold Vec3.smul Vec3.dot
  ring

lemma Vec3.smul_dot_left (a b : Vec3) (s : ℝ) : (a.smul s).dot b = s * a.dot b := by
  unfold Vec3.smul Vec3.dot
  ring

lemma Vec3.dot_comm (a b : Vec3) : a.dot b = b.dot a := by
  unfold Vec3.dot
  ring

lemma Vec3.normalize_dot_self (v : Vec3) (hv : v ≠ Vec3.zero) :
    v.normalize.dot v.normalize = 1 := by
  rw [Vec3.normalize_eq_smul v hv, Vec3.smul_dot_smul, ← Vec3.len_mul_self]
  have h := ne_of_gt (Vec3.len_pos v hv)
  field_simp

lemma Vec3.cross_dot_self_left (a b : Vec3) : (a.cross b).dot a = 0 := by
  unfold Vec3.cross Vec3.dot
  ring

lemma Vec3.cross_dot_self_right (a b : Vec3) : (a.cross b).dot b = 0 := by
  unfold Vec3.cross Vec3.dot
  ring

lemma Vec3.cross_dot_cross (a b : Vec3) :
    (a.cross b).dot (a.cross b) = a.dot a * b.dot b - (a.dot b) ^ 2 := by
  unfold Vec3.cross Vec3.dot
  ring

lemma Vec3.smul_cross (a b : Vec3) (s : ℝ) : (a.smul s).cross b = (a.cross b).smul s := by
  unfold Vec3.smul Vec3.cross
  ext <;> dsimp <;> ring

lemma Vec3.cross_smul (a b : Vec3) (s : ℝ) : a.cross (b.smul s) = (a.cross b).smul s := by
  unfold Vec3.smul Vec3.cross
  ext <;> dsimp <;> ring

lemma Vec3.smul_smul (v : Vec3) (s t : ℝ) : (v.smul s).smul t = v.smul (s * t) := by
  unfold Vec3.smul
  ext <;> dsimp <;> ring

lemma Vec3.smul_ne_zero (v : Vec3) (s : ℝ) (hs : s ≠ 0) (hv : v ≠ Vec3.zero) :
    v.smul s ≠ Vec3.zero := by
  intro h
  apply hv
  have hx : v.x * s = 0 := congrArg Vec3.x h
  have hy : v.y * s = 0 := congrArg Vec3.y h
  have hz : v.z * s = 0 := congrArg Vec3.z h
  ext <;> simp [Vec3.zero] <;>
    [exact (mul_eq_zero.mp hx).resolve_right hs;
     exact (mul_eq_zero.mp hy).resolve_right hs;
     exact (mul_eq_zero.mp hz).resolve_right hs]

lemma Vec3.sub_eq_zero_iff (a b : Vec3) : a.sub b = Vec3.zero ↔ a = b := by
  constructor
  · intro h
    have hx : a.x - b.x = 0 := congrArg Vec3.x h
    have hy : a.y - b.y = 0 := congrArg Vec3.y h
    have hz : a.z - b.z = 0 := congrArg Vec3.z h
    ext <;> linarith
  · intro h
    subst h
    ext <;> simp [Vec3.sub, Vec3.zero]

lemma Vec3.normalize_of_unit (v : Vec3) (h : v.dot v = 1) : v.normalize = v := by
  have hl : v.len = 1 := by
    rw [Vec3.len_eq_sqrt_dot, h, Real.sqrt_one]
  unfold Vec3.normalize
  rw [hl]
  norm_num

lemma Vec3.zero_cross (b : Vec3) : Vec3.zero.cross b = Vec3.zero := by
  unfold Vec3.cross Vec3.zero
  ext <;> dsimp <;> ring

lemma Vec3.cross_zero (a : Vec3) : a.cross Vec3.zero = Vec3.zero := by
  unfold Vec3.cross Vec3.zero
  ext <;> dsimp <;> ring

/-- A matrix whose columns are orthonormal times its transpose is the identity. -/
lemma rotation_mul_transpose_of_orthonormal (a b c : Vec3)
    (ha : a.dot a = 1) (hb : b.dot b = 1) (hc : c.dot c = 1)
    (hab : a.dot b = 0) (hac : a.dot c = 0) (hbc : b.dot c = 0) :
    buildRotationMatrix ⟨a, b, c⟩ * (buildRotationMatrix ⟨a, b, c⟩).transpose = 1 := by
  rw [Matrix.mul_eq_one_comm]
  unfold Vec3.dot at ha hb hc hab hac hbc
  ext i j
  fin_cases i <;> fin_cases j <;>
    simp only [Matrix.mul_apply, Matrix.transpose_apply, Fin.sum_univ_three] <;>
    simp [buildRotationMatrix, Matrix.one_apply] <;>
    first
      | linear_combination ha
      | linear_combination hb
      | linear_combination hc
      | linear_combination hab
      | linear_combination hac
      | linear_combination hbc

/-- The rotation matrix built on a right-handed orthonormal frame
(up = forward x right) has determinant one. -/
lemma rotation_det_of_frame (h f : Vec3)
    (hh : h.dot h = 1) (hf : f.dot f = 1) (hfh : f.dot h = 0) :
    (buildRotationMatrix ⟨h, f.cross h, f⟩).det = 1 := by
  unfold Vec3.dot at hh hf hfh
  simp [buildRotationMatrix, Matrix.det_fin_three, Vec3.cross]
  linear_combination (h.x * h.x + h.y * h.y + h.z * h.z) * hf + hh -
    (f.x * h.x + f.y * h.y + f.z * h.z) * hfh

/-- The face axes of a non-degenerate anchor configuration form a right-handed
orthonormal frame, so the rotation matrix built on them is special orthogonal. -/
lemma faceAxes_rotation_orthogonal (leftEye rightEye noseTip chin : Vec3)
    (hpar : (rightEye.sub leftEye).cross (chin.sub noseTip) ≠ Vec3.zero) :
    buildRotationMatrix (computeFaceAxes leftEye rightEye noseTip chin) *
        (buildRotationMatrix (computeFaceAxes leftEye rightEye noseTip chin)).transpose = 1 ∧
      (buildRotationMatrix (computeFaceAxes leftEye rightEye noseTip chin)).det = 1 := by
  set e := rightEye.sub leftEye with he_def
  set c := chin.sub noseTip with hc_def
  have he : e ≠ Vec3.zero := by
    intro h
    rw [h, Vec3.zero_cross] at hpar
    exact hpar rfl
  have hc : c ≠ Vec3.zero := by
    intro h
    rw [h, Vec3.cross_zero] at hpar
    exact hpar rfl
  set h := e.normalize with h_def
  set u := c.normalize with u_def
  have hh1 : h.dot h = 1 := Vec3.normalize_dot_self e he
  set cr := h.cross u with cr_def
  have hcr : cr ≠ Vec3.zero := by
    have h1 : h = e.smul e.len⁻¹ := Vec3.normalize_eq_smul e he
    have h2 : u = c.smul c.len⁻¹ := Vec3.normalize_eq_smul c hc
    have : cr = (e.cross c).smul (c.len⁻¹ * e.len⁻¹) := by
      rw [cr_def, h1, h2, Vec3.smul_cross, Vec3.cross_smul, Vec3.smul_smul]
    rw [this]
    refine Vec3.smul_ne_zero _ _ ?_ hpar
    exact mul_ne_zero (inv_ne_zero (ne_of_gt (Vec3.len_pos c hc)))
      (inv_ne_zero (ne_of_gt (Vec3.len_pos e he)))
  set f := cr.normalize with f_def
  have hf1 : f.dot f = 1 := Vec3.normalize_dot_self cr hcr
  have hfh : f.dot h = 0 := by
    rw [f_def, Vec3.normalize_eq_smul cr hcr, Vec3.smul_dot_left, cr_def,
      Vec3.cross_dot_self_left, mul_zero]
  set w := f.cross h with w_def
  have hw1 : w.dot w = 1 := by
    rw [w_def, Vec3.cross_dot_cross, hf1, hh1, hfh]
    norm_num
  have hwnorm : w.normalize = w := Vec3.normalize_of_unit w hw1
  have haxes : computeFaceAxes leftEye rightEye noseTip chin = ⟨h, w, f⟩ := by
    show FaceAxes.mk h w.normalize f = FaceAxes.mk h w f
    rw [hwnorm]
  rw [haxes]
  constructor
  · refine rotation_mul_transpose_of_orthonormal h w f hh1 hw1 hf1 ?_ ?_ ?_
    · rw [Vec3.dot_comm, w_def]
      exact Vec3.cross_dot_self_right f h
    · rw [Vec3.dot_comm]
      exact hfh
    · rw [w_def]
      exact Vec3.cross_dot_self_left f h
  · exact rotation_det_of_frame h f hh1 hf1 hfh

lemma get?_replicate {α : Type} (a : α) (n i : ℕ) :
    (List.replicate n a).get? i = if i < n then some a else none := by
  induction n generalizing i with
  | zero => simp
  | succ n ih =>
    cases i with
    | zero => simp [List.replicate_succ]
    | succ i =>
      rw [List.replicate_succ, List.get?_cons_succ, ih]
      by_cases h : i < n
      · rw [if_pos h, if_pos (by omega)]
      · rw [if_neg h, if_neg (by omega)]

/-- Claim C1: for every landmark frame of at least 468 points whose anchor
landmarks are non-degenerate (left and right eye outer corners at indices 33
and 263 distinct, chin at 152 distinct from nose tip at 1, and the eye axis
not parallel to the nose-chin axis), the rotation matrix produced by the Pose
Estimator satisfies R * R^T = 1 (hence within any tolerance, in particular
1e-5) and det R = 1 exactly. -/
theorem claim1_rotation_orthogonal (s : EstimatorState) (l : List Vec3)
    (hlen : 468 ≤ l.length)
    (heyes : l.getD 33 default ≠ l.getD 263 default)
    (hchin : l.getD 1 default ≠ l.getD 152 default)
    (hpar : ((l.getD 263 default).sub (l.getD 33 default)).cross
        ((l.getD 152 default).sub (l.getD 1 default)) ≠ Vec3.zero) :
    ∃ r : PoseResult, (estimatePose s (some l)).2 = some r ∧
      r.rotationMatrix * r.rotationMatrix.transpose = 1 ∧ r.rotationMatrix.det = 1 := by
  have hguard : ¬ l.length < 468 := not_lt.mpr hlen
  obtain ⟨h1, h2⟩ := faceAxes_rotation_orthogonal (l.getD 33 default) (l.getD 263 default)
    (l.getD 1 default) (l.getD 152 default) hpar
  simp only [estimatePose]
  rw [if_neg hguard]
  exact ⟨_, rfl, h1, h2⟩

lemma anchorFrame_get_33 : anchorFrame.getD 33 default = Vec3.mk 0 0 0 := by
  rw [List.getD_eq_get?]
  unfold anchorFrame
  rw [List.get?_ofFn]
  simp [List.ofFnNthVal]

lemma anchorFrame_get_1 : anchorFrame.getD 1 default = Vec3.mk 0 0 0 := by
  rw [List.getD_eq_get?]
  unfold anchorFrame
  rw [List.get?_ofFn]
  simp [List.ofFnNthVal]

lemma anchorFrame_get_152 : anchorFrame.getD 152 default = Vec3.mk 0 1 0 := by
  rw [List.getD_eq_get?]
  unfold anchorFrame
  rw [List.get?_ofFn]
  simp [List.ofFnNthVal]

lemma anchorFrame_get_263 : anchorFrame.getD 263 default = Vec3.mk 1 0 0 := by
  rw [List.getD_eq_get?]
  unfold anchorFrame
  rw [List.get?_ofFn]
  simp [List.ofFnNthVal]

lemma anchorFrame_length : anchorFrame.length = 468 := by
  unfold anchorFrame
  rw [List.length_ofFn]

theorem claim1_rotation_orthogonal_witness :
    ∃ r : PoseResult, (estimatePose initialEstimator (some anchorFrame)).2 = some r ∧
      r.rotationMatrix * r.rotationMatrix.transpose = 1 ∧ r.rotationMatrix.det = 1 := by
  refine claim1_rotation_orthogonal initialEstimator anchorFrame ?_ ?_ ?_ ?_
  · rw [anchorFrame_length]
  · rw [anchorFrame_get_33, anchorFrame_get_263]
    intro h
    have := congrArg Vec3.x h
    norm_num at this
  · rw [anchorFrame_get_1, anchorFrame_get_152]
    intro h
    have := congrArg Vec3.y h
    norm_num at this
  · rw [anchorFrame_get_33, anchorFrame_get_263, anchorFrame_get_1, anchorFrame_get_152]
    intro h
    have := congrArg Vec3.z h
    simp [Vec3.sub, Vec3.cross, Vec3.zero] at this

/-- Claim C4: a null input or one with fewer than 468 landmarks makes both
`estimatePose` and `analyze` return null with the component state (histories,
baseline, smoothing filters) completely unchanged. -/
theorem claim4_invalid_input_no_mutation (se : EstimatorState) (sa : AnalyzerState)
    (input centered : Option (List Vec3))
    (hbad : input = none ∨ ∃ l, input = some l ∧ l.length < 468) :
    estimatePose se input = (se, none) ∧ analyze sa input centered = (sa, none) := by
  rcases hbad with h | ⟨l, h, hlen⟩
  · subst h
    exact ⟨rfl, rfl⟩
  · subst h
    constructor
    · simp only [estimatePose]
      rw [if_pos hlen]
    · simp only [analyze]
      rw [if_pos hlen]

theorem claim4_invalid_input_no_mutation_witness :
    estimatePose initialEstimator (some []) = (initialEstimator, none) ∧
      analyze freshAnalyzer (some []) none = (freshAnalyzer, none) :=
  claim4_invalid_input_no_mutation initialEstimator freshAnalyzer (some []) none
    (Or.inr ⟨[], rfl, by norm_num⟩)

/-- Claim C9: whenever landmarks 13 and 14 are both present, the
MOUTH_OPENNESS and MOUTH_HEIGHT entries of the MeasurementSet coincide: both
are the 3D Euclidean distance between those two landmarks. -/
theorem claim9_mouth_measures_equal (l : List Vec3) (p q : Vec3)
    (h13 : l.get? 13 = some p) (h14 : l.get? 14 = some q) :
    computeDistances l .MOUTH_OPENNESS = computeDistances l .MOUTH_HEIGHT ∧
      computeDistances l .MOUTH_HEIGHT = some (distance3D p q) := by
  have hopen : computeDistances l .MOUTH_OPENNESS = some (computeMouthOpenness l) := rfl
  have h1 : computeMouthOpenness l = distance3D p q := by
    unfold computeMouthOpenness
    rw [h13, h14]
  have h2 : computeDistances l .MOUTH_HEIGHT = some (distancePoints p q) := by
    show (match l.get? 13, l.get? 14 with
      | some p1, some p2 => some (distancePoints p1 p2)
      | _, _ => (none : Option ℝ)) = some (distancePoints p q)
    rw [h13, h14]
  have h3 : distancePoints p q = distance3D p q := by
    unfold distancePoints distance3D
    congr 1
    ring
  rw [hopen, h1, h2, h3]
  exact ⟨rfl, rfl⟩

theorem claim9_mouth_measures_equal_witness :
    computeDistances (List.replicate 15 (Vec3.mk 0 0 0)) .MOUTH_OPENNESS =
        computeDistances (List.replicate 15 (Vec3.mk 0 0 0)) .MOUTH_HEIGHT ∧
      computeDistances (List.replicate 15 (Vec3.mk 0 0 0)) .MOUTH_HEIGHT =
        some (distance3D (Vec3.mk 0 0 0) (Vec3.mk 0 0 0)) :=
  claim9_mouth_measures_equal _ _ _
    (by rw [get?_replicate]; norm_num) (by rw [get?_replicate]; norm_num)

/-- Claim C10: with fewer than 5 pose history entries (in particular during a
session's first four frames) the stability metrics are the constant all-ones
record, not a value derived from the history's standard deviation. -/
theorem claim10_stability_warmup (h : List EulerAngles) (hlen : h.length < 5) :
    computeStability h = ⟨1, 1, 1, 1⟩ := by
  unfold computeStability
  rw [if_pos hlen]

theorem claim10_stability_warmup_witness :
    computeStability ([] : List EulerAngles) = ⟨1, 1, 1, 1⟩ :=
  claim10_stability_warmup [] (by norm_num)

lemma pushCap_small {α : Type} (h : List α) (a : α) (hlen : h.length < 30) :
    pushCap 30 h a = h ++ [a] := by
  unfold pushCap
  rw [if_neg (by rw [List.length_append]; simp; omega)]

lemma detect_warm (hist : List HistoryEntry) (d : MeasurementSet)
    (hlen : hist.length < 10) :
    detectExpressionChanges hist none d = (none, noChanges) := by
  unfold detectExpressionChanges
  by_cases h5 : hist.length < 5
  · rw [if_pos h5]
  · rw [if_neg h5, if_neg (by omega : ¬ 10 ≤ hist.length)]

lemma trackerStep_warm (s : AnalyzerState) (d : MeasurementSet)
    (hb : s.baselineMeasurements = none) (hlen : s.measurementHistory.length < 10) :
    trackerStep s d =
      (⟨s.measurementHistory ++ [⟨d, normalizeToFaceSize d⟩], none⟩, noChanges) := by
  unfold trackerStep
  rw [hb, detect_warm _ _ hlen, pushCap_small _ _ (by omega)]

lemma trackerRun_warm (ds : List MeasurementSet) (s : AnalyzerState)
    (hb : s.baselineMeasurements = none)
    (hlen : s.measurementHistory.length + ds.length ≤ 10) :
    trackerRun s ds =
      (⟨s.measurementHistory ++ ds.map fun d => ⟨d, normalizeToFaceSize d⟩, none⟩,
       List.replicate ds.length noChanges) := by
  induction ds generalizing s with
  | nil =>
    obtain ⟨hist, base⟩ := s
    simp only [AnalyzerState.mk.injEq] at hb ⊢
    simp [trackerRun, hb]
  | cons d ds ih =>
    have hstep := trackerStep_warm s d hb (by simp at hlen; omega)
    have hrec := ih ⟨s.measurementHistory ++ [⟨d, normalizeToFaceSize d⟩], none⟩ rfl
      (by simp at hlen ⊢; omega)
    simp only [trackerRun, hstep, hrec]
    simp [List.replicate_succ]

lemma trackerRun_append (s : AnalyzerState) (xs ys : List MeasurementSet) :
    trackerRun s (xs ++ ys) =
      ((trackerRun (trackerRun s xs).1 ys).1,
       (trackerRun s xs).2 ++ (trackerRun (trackerRun s xs).1 ys).2) := by
  induction xs generalizing s with
  | nil => simp [trackerRun]
  | cons d ds ih => simp [trackerRun, ih]

lemma trackerStep_capture :
    trackerStep ⟨List.replicate 10 ⟨mset10, normalizeToFaceSize mset10⟩, none⟩ mset12 =
      (⟨List.replicate 10 ⟨mset10, normalizeToFaceSize mset10⟩ ++
          [⟨mset12, normalizeToFaceSize mset12⟩], some mset10⟩,
       mkExpressionResult mset10 mset12) := by
  have hbase : ((List.replicate 10 (⟨mset10, normalizeToFaceSize mset10⟩ : HistoryEntry)).getD 5
      default).distances = mset10 := by
    rw [List.getD_eq_get?, get?_replicate]
    norm_num
  have hdet : detectExpressionChanges
      (List.replicate 10 ⟨mset10, normalizeToFaceSize mset10⟩) none mset12 =
      (some mset10, mkExpressionResult mset10 mset12) := by
    simp only [detectExpressionChanges, List.length_replicate]
    rw [if_neg (by norm_num), if_pos (by norm_num), hbase]
  unfold trackerStep
  rw [hdet, pushCap_small _ _ (by simp)]

lemma changeAt_scenario :
    changeAt mset10 mset12 .EYE_TO_EYE = some ⟨12, 10, 20, .increase⟩ := by
  have hpc : ((12 : ℝ) - 10) / 10 * 100 = 20 := by norm_num
  show (if (10 : ℝ) ≠ 0 ∧ 10 < |((12 : ℝ) - 10) / 10 * 100| then
      some (⟨12, 10, ((12 : ℝ) - 10) / 10 * 100,
        if 0 < ((12 : ℝ) - 10) / 10 * 100 then Direction.increase else Direction.decrease⟩ :
        MeasurementChange)
    else none) = some ⟨12, 10, 20, Direction.increase⟩
  rw [hpc, show |(20 : ℝ)| = 20 from abs_of_pos (by norm_num)]
  rw [if_pos ⟨by norm_num, by norm_num⟩, if_pos (by norm_num)]

/-- Claim C3: the baseline warm-up scenario.  From a fresh analyzer fed the
constant measurement set {EYE_TO_EYE: 10}, each of the first 4 calls reports
no change (history below 5); after 10 such frames the 11th call, carrying
{EYE_TO_EYE: 12}, captures the set at history position 5 (the 6th frame's
set) as the baseline and reports a change for EYE_TO_EYE with
percentChange = 20 and direction increase; a captured baseline is never
recomputed by later calls; and whenever a baseline exists and the history
holds at least 5 entries, hasChange holds iff some measurement present in
both the current and baseline sets has absolute percent change above 10. -/
theorem claim3_baseline_warmup :
    (∀ r ∈ (trackerRun freshAnalyzer (List.replicate 10 mset10 ++ [mset12])).2.take 4,
        ¬ r.hasChange) ∧
    (trackerRun freshAnalyzer (List.replicate 10 mset10 ++ [mset12])).1.baselineMeasurements =
        some mset10 ∧
    (∃ r, (trackerRun freshAnalyzer (List.replicate 10 mset10 ++ [mset12])).2.getLast? = some r ∧
        r.hasChange ∧ r.changes .EYE_TO_EYE = some ⟨12, 10, 20, .increase⟩) ∧
    (∀ (s : AnalyzerState) (d b : MeasurementSet),
        s.baselineMeasurements = some b → (trackerStep s d).1.baselineMeasurements = some b) ∧
    (∀ (hist : List HistoryEntry) (b current : MeasurementSet), 5 ≤ hist.length →
        ((detectExpressionChanges hist (some b) current).2.hasChange ↔
          ∃ k v bv, current k = some v ∧ b k = some bv ∧ 10 < |(v - bv) / bv * 100|)) := by
  have hwarm : trackerRun freshAnalyzer (List.replicate 10 mset10) =
      (⟨List.replicate 10 ⟨mset10, normalizeToFaceSize mset10⟩, none⟩,
       List.replicate 10 noChanges) := by
    have h := trackerRun_warm (List.replicate 10 mset10) freshAnalyzer rfl (by simp [freshAnalyzer])
    simpa [freshAnalyzer, List.map_replicate] using h
  have hfull : trackerRun freshAnalyzer (List.replicate 10 mset10 ++ [mset12]) =
      (⟨List.replicate 10 ⟨mset10, normalizeToFaceSize mset10⟩ ++
          [⟨mset12, normalizeToFaceSize mset12⟩], some mset10⟩,
       List.replicate 10 noChanges ++ [mkExpressionResult mset10 mset12]) := by
    rw [trackerRun_append, hwarm]
    show ((trackerRun _ [mset12]).1, List.replicate 10 noChanges ++ (trackerRun _ [mset12]).2) = _
    rw [show ∀ s : AnalyzerState, trackerRun s [mset12] =
        ((trackerStep s mset12).1, [(trackerStep s mset12).2]) from fun s => rfl]
    rw [trackerStep_capture]
  refine ⟨?_, ?_, ?_, ?_, ?_⟩
  · intro r hr
    rw [hfull] at hr
    have htake : (List.replicate 10 noChanges ++ [mkExpressionResult mset10 mset12]).take 4 =
        List.replicate 4 noChanges := by
      rw [List.take_append_eq_append_take, List.take_replicate]
      simp
    rw [htake] at hr
    rw [List.eq_of_mem_replicate hr]
    simp [noChanges]
  · rw [hfull]
  · refine ⟨mkExpressionResult mset10 mset12, ?_, ?_, ?_⟩
    · rw [hfull]
      exact List.getLast?_concat _
    · exact ⟨.EYE_TO_EYE, by rw [changeAt_scenario]; simp⟩
    · exact changeAt_scenario
  · intro s d b hb
    unfold trackerStep detectExpressionChanges
    rw [hb]
    by_cases h : s.measurementHistory.length < 5
    · rw [if_pos h]
    · rw [if_neg h]
  · intro hist b current hlen
    unfold detectExpressionChanges
    rw [if_neg (by omega)]
    show (∃ k, changeAt b current k ≠ none) ↔ _
    constructor
    · rintro ⟨k, hk⟩
      unfold changeAt at hk
      rcases hcv : current k with _ | v
      · rw [hcv] at hk
        simp at hk
      rcases hbv : b k with _ | bv
      · rw [hcv, hbv] at hk
        simp at hk
      rw [hcv, hbv] at hk
      by_cases hcond : bv ≠ 0 ∧ 10 < |(v - bv) / bv * 100|
      · exact ⟨k, v, bv, hcv, hbv, hcond.2⟩
      · exfalso
        apply hk
        show (if bv ≠ 0 ∧ 10 < |(v - bv) / bv * 100| then
            some (⟨v, bv, (v - bv) / bv * 100,
              if 0 < (v - bv) / bv * 100 then Direction.increase else Direction.decrease⟩ :
              MeasurementChange)
          else none) = none
        rw [if_neg hcond]
    · rintro ⟨k, v, bv, hcv, hbv, h10⟩
      refine ⟨k, ?_⟩
      have hbv0 : bv ≠ 0 := by
        intro h
        rw [h] at h10
        simp at h10
        linarith
      have hsome : changeAt b current k = some ⟨v, bv, (v - bv) / bv * 100,
          if 0 < (v - bv) / bv * 100 then Direction.increase else Direction.decrease⟩ := by
        unfold changeAt
        rw [hcv, hbv]
        show (if bv ≠ 0 ∧ 10 < |(v - bv) / bv * 100| then
            some (⟨v, bv, (v - bv) / bv * 100,
              if 0 < (v - bv) / bv * 100 then Direction.increase else Direction.decrease⟩ :
              MeasurementChange)
          else none) = _
        rw [if_pos ⟨hbv0, h10⟩]
      rw [hsome]
      simp

lemma foldl_pushCap_thirty {α : Type} (xs : List α) :
    List.foldl (pushCap 30) [] xs = xs.drop (xs.length - 30) := by
  induction xs using List.reverseRecOn with
  | nil => simp
  | append_singleton ys x ih =>
    rw [List.foldl_append, List.foldl_cons, List.foldl_nil, ih]
    by_cases h : ys.length < 30
    · have h0 : ys.length - 30 = 0 := by omega
      have h1 : (ys ++ [x]).length - 30 = 0 := by
        rw [List.length_append]
        simp
        omega
      rw [h0, List.drop_zero, h1, List.drop_zero]
      unfold pushCap
      rw [if_neg (by rw [List.length_append]; simp; omega)]
    · have hdlen : (ys.drop (ys.length - 30)).length = 30 := by
        rw [List.length_drop]
        omega
      have hne : ys.drop (ys.length - 30) ≠ [] := by
        intro hnil
        rw [hnil] at hdlen
        simp at hdlen
      unfold pushCap
      rw [if_pos (by rw [List.length_append, hdlen]; simp)]
      rw [List.tail_append_of_ne_nil hne, List.tail_drop]
      have h2 : (ys ++ [x]).length - 30 = ys.length - 30 + 1 := by
        rw [List.length_append]
        simp
        omega
      rw [List.drop_append_eq_append_drop, h2]
      rw [show ys.length - 30 + 1 - ys.length = 0 from by omega, List.drop_zero]

lemma estimatePose_valid_history (s : EstimatorState) (l : List Vec3)
    (h : ¬ l.length < 468) :
    (estimatePose s (some l)).1.poseHistory = pushCap 30 s.poseHistory (frameSmoothed s l) := by
  simp only [estimatePose]
  rw [if_neg h]
  rfl

lemma runEstimator_poseHistory (frames : List (List Vec3)) (s : EstimatorState)
    (hval : ∀ f ∈ frames, 468 ≤ f.length) :
    (runEstimator s frames).poseHistory =
      List.foldl (pushCap 30) s.poseHistory (smoothedTrace s frames) := by
  induction frames generalizing s with
  | nil => rfl
  | cons f fs ih =>
    have hf : ¬ f.length < 468 := not_lt.mpr (hval f (by simp))
    have hstep := estimatePose_valid_history s f hf
    have hrec := ih (estimatePose s (some f)).1 fun g hg => hval g (by simp [hg])
    show (runEstimator (estimatePose s (some f)).1 fs).poseHistory = _
    rw [hrec, smoothedTrace, List.foldl_cons, hstep]

lemma smoothedTrace_length (frames : List (List Vec3)) (s : EstimatorState) :
    (smoothedTrace s frames).length = frames.length := by
  induction frames generalizing s with
  | nil => rfl
  | cons f fs ih => simp [smoothedTrace, ih]

lemma analyze_valid_history (s : AnalyzerState) (f : List Vec3) (h : ¬ f.length < 468) :
    (analyze s (some f) none).1.measurementHistory =
      pushCap 30 s.measurementHistory (analyzerEntry f) := by
  simp only [analyze]
  rw [if_neg h]
  rfl

lemma runAnalyzer_history (frames : List (List Vec3)) (s : AnalyzerState)
    (hval : ∀ f ∈ frames, 468 ≤ f.length) :
    (runAnalyzer s frames).measurementHistory =
      List.foldl (pushCap 30) s.measurementHistory (frames.map analyzerEntry) := by
  induction frames generalizing s with
  | nil => rfl
  | cons f fs ih =>
    have hf : ¬ f.length < 468 := not_lt.mpr (hval f (by simp))
    have hstep := analyze_valid_history s f hf
    have hrec := ih (analyze s (some f) none).1 fun g hg => hval g (by simp [hg])
    show (runAnalyzer (analyze s (some f) none).1 fs).measurementHistory = _
    rw [hrec, List.map_cons, List.foldl_cons, hstep]

/-- Claim C6: both rolling histories are FIFO with capacity 30.  After n valid
frames the pose history is exactly the most recent min(n, 30) smoothed-angle
entries in submission order (the drop of the full trace), its length is
min(n, 30) — in particular exactly 30 after 35 frames — and the analyzer's
measurement history is likewise the most recent min(n, 30) entries. -/
theorem claim6_fifo_histories (frames : List (List Vec3))
    (hval : ∀ f ∈ frames, 468 ≤ f.length) :
    (runEstimator initialEstimator frames).poseHistory =
        (smoothedTrace initialEstimator frames).drop (frames.length - 30) ∧
      (smoothedTrace initialEstimator frames).length = frames.length ∧
      (runEstimator initialEstimator frames).poseHistory.length = min frames.length 30 ∧
      (frames.length = 35 → (runEstimator initialEstimator frames).poseHistory.length = 30) ∧
      (runAnalyzer freshAnalyzer frames).measurementHistory =
        (frames.map analyzerEntry).drop (frames.length - 30) := by
  have hlen := smoothedTrace_length frames initialEstimator
  have h1 : (runEstimator initialEstimator frames).poseHistory =
      (smoothedTrace initialEstimator frames).drop (frames.length - 30) := by
    rw [runEstimator_poseHistory frames initialEstimator hval]
    rw [show initialEstimator.poseHistory = [] from rfl]
    rw [foldl_pushCap_thirty, hlen]
  have h2 : (runEstimator initialEstimator frames).poseHistory.length = min frames.length 30 := by
    rw [h1, List.length_drop, hlen]
    omega
  refine ⟨h1, hlen, h2, ?_, ?_⟩
  · intro h35
    rw [h2, h35]
    rfl
  · rw [runAnalyzer_history frames freshAnalyzer hval]
    rw [show freshAnalyzer.measurementHistory = [] from rfl]
    rw [foldl_pushCap_thirty, List.length_map]

theorem claim6_fifo_histories_witness :
    (runEstimator initialEstimator (List.replicate 35 anchorFrame)).poseHistory.length = 30 := by
  have h := claim6_fifo_histories (List.replicate 35 anchorFrame)
    (fun f hf => by rw [List.eq_of_mem_replicate hf, anchorFrame_length])
  exact h.2.2.2.1 (by simp)

lemma stdDev_replicate (n : ℕ) (c : ℝ) : stdDev (List.replicate n c) = 0 := by
  unfold stdDev
  cases n with
  | zero => simp
  | succ m =>
    simp only [List.sum_replicate, List.length_replicate, List.map_replicate, nsmul_eq_mul]
    have h1 : ((m + 1 : ℕ) : ℝ) * c / ((m + 1 : ℕ) : ℝ) = c :=
      mul_div_cancel_left₀ c (by positivity)
    rw [h1]
    simp

lemma altYaws_eq : altHistory.map EulerAngles.yaw =
    [-20, 20, -20, 20, -20, 20, -20, 20, -20, 20, -20, 20, -20, 20, -20, 20,
     -20, 20, -20, 20, -20, 20, -20, 20, -20, 20, -20, 20, -20, 20] := by
  simp [altHistory]

lemma stdDev_altYaws : stdDev (altHistory.map EulerAngles.yaw) = 20 := by
  rw [altYaws_eq]
  unfold stdDev
  have hsum : ([-20, 20, -20, 20, -20, 20, -20, 20, -20, 20, -20, 20, -20, 20, -20, 20,
      -20, 20, -20, 20, -20, 20, -20, 20, -20, 20, -20, 20, -20, 20] : List ℝ).sum = 0 := by
    norm_num
  have hlen : (([-20, 20, -20, 20, -20, 20, -20, 20, -20, 20, -20, 20, -20, 20, -20, 20,
      -20, 20, -20, 20, -20, 20, -20, 20, -20, 20, -20, 20, -20, 20] : List ℝ).length : ℝ) =
      30 := by
    norm_num
  simp only [hsum, hlen]
  have hmap : (([-20, 20, -20, 20, -20, 20, -20, 20, -20, 20, -20, 20, -20, 20, -20, 20,
      -20, 20, -20, 20, -20, 20, -20, 20, -20, 20, -20, 20, -20, 20] : List ℝ).map
        fun v => (v - 0 / (30 : ℝ)) ^ 2).sum = 12000 := by
    norm_num
  rw [hmap]
  rw [show (12000 : ℝ) / 30 = 400 by norm_num]
  rw [show (400 : ℝ) = 20 ^ 2 by norm_num, Real.sqrt_sq (by norm_num)]

/-- Claim C7 counterexample: on a 4-entry constant history the code returns
stability.yaw = 1 (warm-up guard), while the per-axis formula min(std/10, 1)
of the claim evaluates to 0. -/
theorem claim7_stability_formula_cex :
    (computeStability (List.replicate 4 ⟨0, 0, 0⟩)).yaw ≠
      min (stdDev ((List.replicate 4 (⟨0, 0, 0⟩ : EulerAngles)).map EulerAngles.yaw) / 10) 1 := by
  unfold computeStability
  rw [if_pos (by simp)]
  show (1 : ℝ) ≠ _
  rw [List.map_replicate]
  show (1 : ℝ) ≠ min (stdDev (List.replicate 4 (0 : ℝ)) / 10) 1
  rw [stdDev_replicate, zero_div, min_eq_left (by norm_num)]
  norm_num

/-- Claim C7 (amended: the min(std/10, 1) characterisation holds once the
history has at least 5 entries; below that the code returns the constant
all-ones record, see the counterexample): each per-axis stability equals
min(std/10, 1) of that axis over the history, overall equals
min(mean-of-the-three-raw-stds/10, 1); 30 identical yaw = 0 entries give
stability.yaw = 0 exactly, and 30 entries alternating between -20 and +20
give stability.yaw = 1 (clamped). -/
theorem claim7_stability_formula (h : List EulerAngles) (hlen : 5 ≤ h.length) :
    computeStability h =
      ⟨min ((stdDev (h.map EulerAngles.yaw) + stdDev (h.map EulerAngles.pitch) +
          stdDev (h.map EulerAngles.roll)) / 3 / 10) 1,
       min (stdDev (h.map EulerAngles.yaw) / 10) 1,
       min (stdDev (h.map EulerAngles.pitch) / 10) 1,
       min (stdDev (h.map EulerAngles.roll) / 10) 1⟩ ∧
    (computeStability (List.replicate 30 ⟨0, 0, 0⟩)).yaw = 0 ∧
    (computeStability altHistory).yaw = 1 := by
  refine ⟨?_, ?_, ?_⟩
  · unfold computeStability
    rw [if_neg (by omega)]
  · unfold computeStability
    rw [if_neg (by simp)]
    show min (stdDev ((List.replicate 30 (⟨0, 0, 0⟩ : EulerAngles)).map EulerAngles.yaw) / 10)
      1 = 0
    rw [List.map_replicate]
    show min (stdDev (List.replicate 30 (0 : ℝ)) / 10) 1 = 0
    rw [stdDev_replicate, zero_div, min_eq_left (by norm_num)]
  · unfold computeStability
    rw [if_neg (by norm_num [altHistory])]
    show min (stdDev (altHistory.map EulerAngles.yaw) / 10) 1 = 1
    rw [stdDev_altYaws]
    rw [show (20 : ℝ) / 10 = 2 by norm_num, min_eq_right (by norm_num)]

theorem claim7_stability_formula_witness :
    (computeStability altHistory).yaw = 1 :=
  (claim7_stability_formula altHistory (by norm_num [altHistory])).2.2

lemma distance3D_mirror (c : ℝ) (p q : Vec3) :
    distance3D (mirrorPoint c p) (mirrorPoint c q) = distance3D p q := by
  unfold distance3D mirrorPoint
  congr 1
  ring

lemma filterMap_option_map {α β : Type} (m : α → β) (os : List (Option α)) :
    os.filterMap (fun o => Option.map m o) = (os.filterMap id).map m := by
  induction os with
  | nil => rfl
  | cons o os ih =>
    cases o with
    | none => simpa using ih
    | some a => simp [ih]

lemma region_points_mirror (l : List Vec3) (c : ℝ) (li ri : List ℕ)
    (hmir : ri.map l.get? = (li.map l.get?).map (Option.map (mirrorPoint c))) :
    (ri.filterMap fun i => l.get? i) =
      (li.filterMap fun i => l.get? i).map (mirrorPoint c) := by
  have h1 : (ri.filterMap fun i => l.get? i) = (ri.map l.get?).filterMap id := by
    rw [List.filterMap_map]
    rfl
  have h2 : (li.filterMap fun i => l.get? i) = (li.map l.get?).filterMap id := by
    rw [List.filterMap_map]
    rfl
  rw [h1, h2, hmir, List.filterMap_map]
  rw [show (id ∘ Option.map (mirrorPoint c)) = fun o => Option.map (mirrorPoint c) o from rfl]
  rw [filterMap_option_map]

lemma getRegionHeight_mirror (l : List Vec3) (c : ℝ) (li ri : List ℕ)
    (hmir : ri.map l.get? = (li.map l.get?).map (Option.map (mirrorPoint c))) :
    getRegionHeight l ri = getRegionHeight l li := by
  unfold getRegionHeight
  rw [region_points_mirror l c li ri hmir, List.length_map, List.map_map]
  rfl

lemma symPair_self (L : ℝ) : (if 0 < L ∧ 0 < L then 1 - |L - L| / max L L else 1) = 1 := by
  by_cases h : 0 < L ∧ 0 < L
  · rw [if_pos h, sub_self, abs_zero, zero_div, sub_zero]
  · rw [if_neg h]

/-- Claim C8: on a frame that is perfectly left-right mirror-symmetric about a
vertical midline (each right-side landmark the mirror image of its left-side
counterpart), the eye and eyebrow symmetry sub-scores are exactly 1 and the
overall percentage is exactly 100; a pair with a zero or missing side also
scores 1 by the fallback. -/
theorem claim8_mirror_symmetry (l : List Vec3) (c : ℝ)
    (h263 : l.get? 263 = (l.get? 33).map (mirrorPoint c))
    (h362 : l.get? 362 = (l.get? 133).map (mirrorPoint c))
    (hbrow : RIGHT_EYEBROW.map l.get? =
      (LEFT_EYEBROW.map l.get?).map (Option.map (mirrorPoint c))) :
    computeSymmetry l = ⟨1, 1, 1, 100⟩ := by
  have hbrowH : getRegionHeight l RIGHT_EYEBROW = getRegionHeight l LEFT_EYEBROW :=
    getRegionHeight_mirror l c LEFT_EYEBROW RIGHT_EYEBROW hbrow
  rcases h33 : l.get? 33 with _ | p <;> rcases h133 : l.get? 133 with _ | q <;>
    rw [h33] at h263 <;> rw [h133] at h362 <;>
    simp only [Option.map_none', Option.map_some'] at h263 h362 <;>
    simp only [computeSymmetry, h33, h133, h263, h362, hbrowH, distance3D_mirror] <;>
    rw [symPair_self, symPair_self] <;>
    norm_num

theorem claim8_mirror_symmetry_witness :
    computeSymmetry (List.replicate 468 ⟨0, 1, 2⟩) = ⟨1, 1, 1, 100⟩ := by
  refine claim8_mirror_symmetry (List.replicate 468 ⟨0, 1, 2⟩) 0 ?_ ?_ ?_
  · rw [get?_replicate, get?_replicate]
    norm_num [mirrorPoint]
  · rw [get?_replicate, get?_replicate]
    norm_num [mirrorPoint]
  · show List.map _ [300, 293, 334, 296, 336, 285, 417] =
      (List.map _ [70, 63, 105, 66, 107, 55, 189]).map _
    simp only [List.map_cons, List.map_nil, get?_replicate]
    norm_num [mirrorPoint]

lemma scaleFrame_get? (k : ℝ) (l : List Vec3) (i : ℕ) :
    (scaleFrame k l).get? i = Option.map (scalePoint k) (l.get? i) :=
  List.get?_map (scalePoint k) l i

lemma distancePoints_scale (k : ℝ) (hk : 0 ≤ k) (p q : Vec3) :
    distancePoints (scalePoint k p) (scalePoint k q) = k * distancePoints p q := by
  unfold distancePoints scalePoint
  rw [show (k * q.x - k * p.x) * (k * q.x - k * p.x) + (k * q.y - k * p.y) * (k * q.y - k * p.y) +
      (k * q.z - k * p.z) * (k * q.z - k * p.z) =
      k ^ 2 * ((q.x - p.x) * (q.x - p.x) + (q.y - p.y) * (q.y - p.y) +
        (q.z - p.z) * (q.z - p.z)) from by ring]
  rw [Real.sqrt_mul (sq_nonneg k), Real.sqrt_sq hk]

lemma distance3D_scale (k : ℝ) (hk : 0 ≤ k) (p q : Vec3) :
    distance3D (scalePoint k p) (scalePoint k q) = k * distance3D p q := by
  unfold distance3D scalePoint
  rw [show (k * q.x - k * p.x) ^ 2 + (k * q.y - k * p.y) ^ 2 + (k * q.z - k * p.z) ^ 2 =
      k ^ 2 * ((q.x - p.x) ^ 2 + (q.y - p.y) ^ 2 + (q.z - p.z) ^ 2) from by ring]
  rw [Real.sqrt_mul (sq_nonneg k), Real.sqrt_sq hk]

lemma pairDistance_scale (k : ℝ) (hk : 0 ≤ k) (l : List Vec3) (i j : ℕ) :
    pairDistance (scaleFrame k l) i j = (pairDistance l i j).map fun v => k * v := by
  unfold pairDistance
  rw [scaleFrame_get?, scaleFrame_get?]
  rcases l.get? i with _ | p <;> rcases l.get? j with _ | q <;>
    simp [distancePoints_scale k hk]

lemma eyeGapRow_scale (k : ℝ) (hk : 0 ≤ k) (u : Option Vec3) (ls : List (Option Vec3)) :
    ((ls.map (Option.map (scalePoint k))).filterMap fun lo =>
      match Option.map (scalePoint k) u, lo with
      | some a, some b => some |a.y - b.y|
      | _, _ => none) =
    (ls.filterMap fun lo =>
      match u, lo with
      | some a, some b => some |a.y - b.y|
      | _, _ => none).map fun g => k * g := by
  rcases u with _ | a
  · simp only [Option.map_none']
    induction ls with
    | nil => rfl
    | cons lo ls ih => rcases lo with _ | b <;> simpa using ih
  · simp only [Option.map_some']
    induction ls with
    | nil => rfl
    | cons lo ls ih =>
      rcases lo with _ | b
      · simpa using ih
      · rw [List.filterMap_map] at ih
        simp only [scalePoint] at ih
        simp [scalePoint, ← mul_sub, abs_mul, abs_of_nonneg hk, ih]

lemma eyeGaps_scale (k : ℝ) (hk : 0 ≤ k) (us ls : List (Option Vec3)) :
    eyeGaps (us.map (Option.map (scalePoint k))) (ls.map (Option.map (scalePoint k))) =
      (eyeGaps us ls).map fun g => k * g := by
  induction us with
  | nil => rfl
  | cons u us ih =>
    unfold eyeGaps at *
    simp only [List.map_cons, List.flatMap_cons, List.map_append]
    rw [ih, eyeGapRow_scale k hk]

lemma computeEyeHeight_scale (k : ℝ) (hk : 0 ≤ k) (l : List Vec3) (upper lower : List ℕ) :
    computeEyeHeight (scaleFrame k l) upper lower = k * computeEyeHeight l upper lower := by
  unfold computeEyeHeight
  have hu : (upper.map fun i => (scaleFrame k l).get? i) =
      (upper.map fun i => l.get? i).map (Option.map (scalePoint k)) := by
    rw [List.map_map]
    exact List.map_congr_left fun i _ => scaleFrame_get? k l i
  have hlo : (lower.map fun i => (scaleFrame k l).get? i) =
      (lower.map fun i => l.get? i).map (Option.map (scalePoint k)) := by
    rw [List.map_map]
    exact List.map_congr_left fun i _ => scaleFrame_get? k l i
  rw [hu, hlo, eyeGaps_scale k hk, List.length_map]
  by_cases h : 0 < (eyeGaps (upper.map fun i => l.get? i) (lower.map fun i => l.get? i)).length
  · rw [if_pos h, if_pos h]
    have hsum : ((eyeGaps (upper.map fun i => l.get? i) (lower.map fun i => l.get? i)).map
        fun g => k * g).sum =
        k * (eyeGaps (upper.map fun i => l.get? i) (lower.map fun i => l.get? i)).sum := by
      simpa using List.sum_map_mul_left
        (eyeGaps (upper.map fun i => l.get? i) (lower.map fun i => l.get? i)) id k
    rw [hsum, mul_div_assoc]
  · rw [if_neg h, if_neg h, mul_zero]

lemma computeMouthOpenness_scale (k : ℝ) (hk : 0 ≤ k) (l : List Vec3) :
    computeMouthOpenness (scaleFrame k l) = k * computeMouthOpenness l := by
  unfold computeMouthOpenness
  rw [scaleFrame_get?, scaleFrame_get?]
  rcases l.get? 13 with _ | p <;> rcases l.get? 14 with _ | q <;>
    simp [distance3D_scale k hk]

lemma computeDistances_scale (k : ℝ) (hk : 0 ≤ k) (l : List Vec3) (key : MeasKey) :
    computeDistances (scaleFrame k l) key = (computeDistances l key).map fun v => k * v := by
  cases key <;>
    simp only [computeDistances, measurementPair] <;>
    first
      | exact pairDistance_scale k hk l _ _
      | simp [computeEyeHeight_scale k hk, computeMouthOpenness_scale k hk]

/-- Claim C5 counterexample: on a 468-point frame whose eye-corner landmarks
33 and 263 coincide (zero inter-eye distance, so the code falls back to scale
1) but whose mouth landmarks differ, scaling by k = 2 doubles the normalized
MOUTH_HEIGHT instead of leaving it unchanged. -/
theorem claim5_normalization_invariance_cex :
    normalizeToFaceSize (computeDistances (scaleFrame 2 degenerateEyeFrame)) .MOUTH_HEIGHT ≠
      normalizeToFaceSize (computeDistances degenerateEyeFrame) .MOUTH_HEIGHT := by
  have h13 : degenerateEyeFrame.get? 13 = some ⟨0, 0, 0⟩ := by
    unfold degenerateEyeFrame
    rw [List.get?_ofFn]
    simp [List.ofFnNthVal]
  have h14 : degenerateEyeFrame.get? 14 = some ⟨1, 0, 0⟩ := by
    unfold degenerateEyeFrame
    rw [List.get?_ofFn]
    simp [List.ofFnNthVal]
  have h33 : degenerateEyeFrame.get? 33 = some ⟨0, 0, 0⟩ := by
    unfold degenerateEyeFrame
    rw [List.get?_ofFn]
    simp [List.ofFnNthVal]
  have h263 : degenerateEyeFrame.get? 263 = some ⟨0, 0, 0⟩ := by
    unfold degenerateEyeFrame
    rw [List.get?_ofFn]
    simp [List.ofFnNthVal]
  have hm : computeDistances degenerateEyeFrame .MOUTH_HEIGHT = some 1 := by
    show pairDistance degenerateEyeFrame 13 14 = some 1
    unfold pairDistance
    rw [h13, h14]
    show some (distancePoints ⟨0, 0, 0⟩ ⟨1, 0, 0⟩) = some 1
    unfold distancePoints
    norm_num
  have he : computeDistances degenerateEyeFrame .EYE_TO_EYE = some 0 := by
    show pairDistance degenerateEyeFrame 33 263 = some 0
    unfold pairDistance
    rw [h33, h263]
    show some (distancePoints ⟨0, 0, 0⟩ ⟨0, 0, 0⟩) = some 0
    unfold distancePoints
    norm_num
  have heS : eyeScale (computeDistances degenerateEyeFrame) = 1 := by
    unfold eyeScale
    rw [he]
    show (if (0 : ℝ) = 0 then 1 else 0) = 1
    rw [if_pos rfl]
  have heS2 : eyeScale (computeDistances (scaleFrame 2 degenerateEyeFrame)) = 1 := by
    unfold eyeScale
    rw [computeDistances_scale 2 (by norm_num) _ .EYE_TO_EYE, he]
    show (if (2 * 0 : ℝ) = 0 then 1 else 2 * 0) = 1
    rw [if_pos (by norm_num)]
  unfold normalizeToFaceSize
  rw [heS, heS2, computeDistances_scale 2 (by norm_num) _ .MOUTH_HEIGHT, hm]
  show some ((2 : ℝ) * 1 / 1) ≠ some (1 / 1)
  norm_num

/-- Claim C5 (amended: the inter-eye reference must be present and nonzero —
otherwise the code normalizes by the fallback scale 1 on both sides while
every other distance still scales, see the counterexample): for every frame
whose inter-eye distance is nonzero and every k > 0, uniform scaling leaves
every normalized measurement exactly unchanged. -/
theorem claim5_normalization_invariance (l : List Vec3) (k d : ℝ) (hk : 0 < k)
    (heye : computeDistances l .EYE_TO_EYE = some d) (hd : d ≠ 0) (key : MeasKey) :
    normalizeToFaceSize (computeDistances (scaleFrame k l)) key =
      normalizeToFaceSize (computeDistances l) key := by
  have hS : eyeScale (computeDistances l) = d := by
    unfold eyeScale
    rw [heye]
    show (if d = 0 then 1 else d) = d
    rw [if_neg hd]
  have hS2 : eyeScale (computeDistances (scaleFrame k l)) = k * d := by
    unfold eyeScale
    rw [computeDistances_scale k hk.le l .EYE_TO_EYE, heye]
    show (if k * d = 0 then 1 else k * d) = k * d
    rw [if_neg (mul_ne_zero (ne_of_gt hk) hd)]
  unfold normalizeToFaceSize
  rw [hS, hS2, computeDistances_scale k hk.le l key]
  rcases computeDistances l key with _ | v
  · rfl
  · show some (k * v / (k * d)) = some (v / d)
    rw [mul_div_mul_left v d (ne_of_gt hk)]

lemma anchorFrame_get?_33 : anchorFrame.get? 33 = some ⟨0, 0, 0⟩ := by
  unfold anchorFrame
  rw [List.get?_ofFn]
  simp [List.ofFnNthVal]

lemma anchorFrame_get?_263 : anchorFrame.get? 263 = some ⟨1, 0, 0⟩ := by
  unfold anchorFrame
  rw [List.get?_ofFn]
  simp [List.ofFnNthVal]

theorem claim5_normalization_invariance_witness :
    normalizeToFaceSize (computeDistances (scaleFrame 2 anchorFrame)) .EYE_TO_EYE =
      normalizeToFaceSize (computeDistances anchorFrame) .EYE_TO_EYE := by
  refine claim5_normalization_invariance anchorFrame 2 1 (by norm_num) ?_ (by norm_num)
    .EYE_TO_EYE
  show pairDistance anchorFrame 33 263 = some 1
  unfold pairDistance
  rw [anchorFrame_get?_33, anchorFrame_get?_263]
  show some (distancePoints ⟨0, 0, 0⟩ ⟨1, 0, 0⟩) = some 1
  unfold distancePoints
  norm_num

lemma atan2_mul_cos_sin (r θ : ℝ) (hr : 0 < r) (hθ : θ ∈ Set.Ioc (-Real.pi) Real.pi) :
    atan2 (r * Real.sin θ) (r * Real.cos θ) = θ := by
  unfold atan2
  have h1 : (⟨r * Real.cos θ, r * Real.sin θ⟩ : ℂ) =
      (r : ℂ) * (↑(Real.cos θ) + ↑(Real.sin θ) * Complex.I) := by
    apply Complex.ext <;> simp [Complex.cos_ofReal_re, Complex.sin_ofReal_re]
  rw [h1, Complex.arg_real_mul _ hr, Complex.ofReal_cos, Complex.ofReal_sin]
  exact Complex.arg_cos_add_sin_mul_I hθ

lemma deg_mem_Ioc (θ : ℝ) (h1 : -180 < θ) (h2 : θ ≤ 180) :
    θ * Real.pi / 180 ∈ Set.Ioc (-Real.pi) Real.pi := by
  have hpi := Real.pi_pos
  constructor
  · nlinarith
  · nlinarith

lemma deg_roundtrip (θ : ℝ) : θ * Real.pi / 180 * 180 / Real.pi = θ := by
  have hpi := Real.pi_ne_zero
  field_simp

/-- Claim C2 counterexample: the triple (360, 0, 0) composes to a rotation
matrix with sy = 1 (far from the singular configuration), yet the extracted
yaw is 0, which is 360 degrees away from the original — so the round trip
fails for angles outside the principal ranges. -/
theorem claim2_euler_roundtrip_cex :
    1e-6 ≤ Real.sqrt (eulerToMatrix 360 0 0 0 0 * eulerToMatrix 360 0 0 0 0 +
        eulerToMatrix 360 0 0 1 0 * eulerToMatrix 360 0 0 1 0) ∧
      1e-3 < |(extractEulerAngles (eulerToMatrix 360 0 0)).yaw - 360| := by
  have ha : (360 : ℝ) * Real.pi / 180 = 2 * Real.pi := by ring
  have hz : (0 : ℝ) * Real.pi / 180 = 0 := by ring
  have e00 : eulerToMatrix 360 0 0 0 0 = 1 := by
    simp [eulerToMatrix, ha, hz]
  have e10 : eulerToMatrix 360 0 0 1 0 = 0 := by
    simp [eulerToMatrix, ha, hz]
  have hsy : Real.sqrt (eulerToMatrix 360 0 0 0 0 * eulerToMatrix 360 0 0 0 0 +
      eulerToMatrix 360 0 0 1 0 * eulerToMatrix 360 0 0 1 0) = 1 := by
    rw [e00, e10]
    norm_num
  refine ⟨by rw [hsy]; norm_num, ?_⟩
  have hyaw : (extractEulerAngles (eulerToMatrix 360 0 0)).yaw = 0 := by
    simp only [extractEulerAngles, hsy]
    rw [if_neg (by norm_num)]
    show atan2 (eulerToMatrix 360 0 0 1 0) (eulerToMatrix 360 0 0 0 0) * 180 / Real.pi = 0
    rw [e00, e10]
    unfold atan2
    rw [show (⟨1, 0⟩ : ℂ) = 1 from by apply Complex.ext <;> simp]
    rw [Complex.arg_one]
    ring
  rw [hyaw]
  rw [show |(0 : ℝ) - 360| = 360 from by rw [abs_of_nonpos (by norm_num)]; norm_num]
  norm_num

/-- Claim C2 (amended: restricted to the principal Euler ranges — yaw and roll
in (-180, 180], pitch in (-90, 90) — which the counterexample at yaw = 360
shows to be necessary): composing the ZYX rotation matrix from (yaw, pitch,
roll) and decomposing it through the Pose Estimator's extraction reproduces
the angles exactly (hence within 1e-3 degrees), away from the singular
configuration sy < 1e-6 (where the code defines roll = 0 by convention and
computes yaw as atan2(-R01, R11)). -/
theorem claim2_euler_roundtrip (y p r : ℝ)
    (hy1 : -180 < y) (hy2 : y ≤ 180)
    (hp1 : -90 < p) (hp2 : p < 90)
    (hr1 : -180 < r) (hr2 : r ≤ 180)
    (hsing : 1e-6 ≤ Real.cos (p * Real.pi / 180)) :
    extractEulerAngles (eulerToMatrix y p r) = ⟨y, p, r⟩ := by
  have hcb : (0 : ℝ) < Real.cos (p * Real.pi / 180) := by
    have : (0 : ℝ) < 1e-6 := by norm_num
    linarith
  have e00 : eulerToMatrix y p r 0 0 =
      Real.cos (y * Real.pi / 180) * Real.cos (p * Real.pi / 180) := by
    simp [eulerToMatrix]
  have e10 : eulerToMatrix y p r 1 0 =
      Real.sin (y * Real.pi / 180) * Real.cos (p * Real.pi / 180) := by
    simp [eulerToMatrix]
  have e20 : eulerToMatrix y p r 2 0 = -Real.sin (p * Real.pi / 180) := by
    simp [eulerToMatrix]
  have e21 : eulerToMatrix y p r 2 1 =
      Real.cos (p * Real.pi / 180) * Real.sin (r * Real.pi / 180) := by
    simp [eulerToMatrix]
  have e22 : eulerToMatrix y p r 2 2 =
      Real.cos (p * Real.pi / 180) * Real.cos (r * Real.pi / 180) := by
    simp [eulerToMatrix]
  have hsy : Real.sqrt (eulerToMatrix y p r 0 0 * eulerToMatrix y p r 0 0 +
      eulerToMatrix y p r 1 0 * eulerToMatrix y p r 1 0) = Real.cos (p * Real.pi / 180) := by
    rw [e00, e10]
    rw [show Real.cos (y * Real.pi / 180) * Real.cos (p * Real.pi / 180) *
          (Real.cos (y * Real.pi / 180) * Real.cos (p * Real.pi / 180)) +
        Real.sin (y * Real.pi / 180) * Real.cos (p * Real.pi / 180) *
          (Real.sin (y * Real.pi / 180) * Real.cos (p * Real.pi / 180)) =
        Real.cos (p * Real.pi / 180) ^ 2 from by
      linear_combination Real.cos (p * Real.pi / 180) ^ 2 *
        Real.sin_sq_add_cos_sq (y * Real.pi / 180)]
    exact Real.sqrt_sq hcb.le
  simp only [extractEulerAngles, hsy]
  rw [if_neg (not_lt.mpr hsing)]
  simp only [EulerAngles.mk.injEq]
  refine ⟨?_, ?_, ?_⟩
  · rw [e00, e10, mul_comm (Real.sin (y * Real.pi / 180)), mul_comm (Real.cos (y * Real.pi / 180))]
    rw [atan2_mul_cos_sin _ _ hcb (deg_mem_Ioc y hy1 hy2)]
    exact deg_roundtrip y
  · rw [e20, neg_neg]
    rw [show Real.sin (p * Real.pi / 180) = 1 * Real.sin (p * Real.pi / 180) from (one_mul _).symm]
    rw [show Real.cos (p * Real.pi / 180) = 1 * Real.cos (p * Real.pi / 180) from (one_mul _).symm]
    rw [atan2_mul_cos_sin 1 _ one_pos (deg_mem_Ioc p (by linarith) (by linarith))]
    exact deg_roundtrip p
  · rw [e21, e22, atan2_mul_cos_sin _ _ hcb (deg_mem_Ioc r hr1 hr2)]
    exact deg_roundtrip r

theorem claim2_euler_roundtrip_witness :
    extractEulerAngles (eulerToMatrix 30 0 0) = ⟨30, 0, 0⟩ := by
  refine claim2_euler_roundtrip 30 0 0 (by norm_num) (by norm_num) (by norm_num) (by norm_num)
    (by norm_num) (by norm_num) ?_
  rw [show (0 : ℝ) * Real.pi / 180 = 0 from by ring, Real.cos_zero]
  norm_num

theorem claim3_baseline_warmup_witness :
    (detectExpressionChanges (List.replicate 5 (default : HistoryEntry)) (some mset10)
        mset12).2.hasChange := by
  refine (claim3_baseline_warmup.2.2.2.2 (List.replicate 5 default) mset10 mset12
    (by simp)).mpr ?_
  refine ⟨.EYE_TO_EYE, 12, 10, rfl, rfl, ?_⟩
  have hpc : ((12 : ℝ) - 10) / 10 * 100 = 20 := by norm_num
  rw [hpc, abs_of_pos] <;> norm_num

end FaceCore
